import Mathlib

/-!
Shallow embedding of the annotation editor core of DOCUTHING
(src/src/pages/AddTextToPDF.tsx), in exact rational arithmetic.
Coordinates are PDF points, modelled as rationals.
-/

namespace DocuThing

/-- Math.abs on rationals. -/
def absQ (q : ℚ) : ℚ := if q < 0 then -q else q

/-- Math.min on rationals. -/
def minQ (a b : ℚ) : ℚ := if a ≤ b then a else b

/-- Math.max on rationals. -/
def maxQ (a b : ℚ) : ℚ := if a ≤ b then b else a

/-- Snapping threshold in PDF points (SNAP_THRESHOLD = 5). -/
def SNAP_THRESHOLD : ℚ := 5

/-- Maximum number of history snapshots (MAX_HISTORY = 50). -/
def MAX_HISTORY : ℕ := 50

/-- Minimum annotation width enforced by resize (minWidth = 20). -/
def minWidth : ℚ := 20

/-- Minimum annotation height enforced by resize (minHeight = 10). -/
def minHeight : ℚ := 10

/-- A text annotation (interface TextAnnotation): position and size in PDF
points, with y measured from the top of the page. -/
structure Annot where
  id : String
  text : String
  x : ℚ
  y : ℚ
  page : ℕ
  fontSize : ℚ
  color : String
  width : ℚ
  height : ℚ
deriving DecidableEq

/-- Per-page geometry (interface PageInfo from pdfUtils): MediaBox size,
offsets, rotation in degrees, and rotation-aware effective display size. -/
structure PageInfo where
  width : ℚ
  height : ℚ
  offsetX : ℚ
  offsetY : ℚ
  rotation : ℤ
  effectiveWidth : ℚ
  effectiveHeight : ℚ
deriving DecidableEq

/-- Guide orientation (SnapGuide.type). -/
inductive GuideType
  | vertical
  | horizontal
deriving DecidableEq

/-- An active alignment guide (interface SnapGuide). -/
structure SnapGuide where
  type : GuideType
  position : ℚ
deriving DecidableEq

/-- The snap comparison: a candidate offset is within threshold of a snap
point (Math.abs(xPoint - snapPoint) < SNAP_THRESHOLD). -/
def withinSnap (xp sp : ℚ) : Bool :=
  decide (absQ (xp - sp) < SNAP_THRESHOLD)

/-- getSnapPoints: page edges and center plus each same-page sibling
annotation's edges and centers; returns (horizontalPoints, verticalPoints). -/
def getSnapPoints (anns : List Annot) (curPage : ℕ) (dimW dimH : ℚ)
    (excludeId : String) : List ℚ × List ℚ :=
  let others := anns.filter (fun a => a.id != excludeId && a.page == curPage + 1)
  let verticalPoints :=
    [0, dimW / 2, dimW] ++ others.flatMap (fun a => [a.x, a.x + a.width / 2, a.x + a.width])
  let horizontalPoints :=
    [0, dimH / 2, dimH] ++ others.flatMap (fun a => [a.y, a.y + a.height / 2, a.y + a.height])
  (horizontalPoints, verticalPoints)

/-- One axis of applySnapping: for each of the three candidate offsets, the
first snap point within threshold overwrites the snapped coordinate
(snapped = base + (snapPoint - offset)) and appends a guide; a later
matching offset overwrites the coordinate set by an earlier one. -/
def snapStep (points : List ℚ) (base : ℚ) (gt : GuideType)
    (acc : ℚ × List SnapGuide) (xp : ℚ) : ℚ × List SnapGuide :=
  match points.find? (fun sp => withinSnap xp sp) with
  | some sp => (base + (sp - xp), acc.2 ++ [⟨gt, sp⟩])
  | none => acc

/-- One axis of applySnapping, folding snapStep over the three offsets
starting from the unsnapped coordinate and no guides. -/
def snapFold (points : List ℚ) (base : ℚ) (gt : GuideType)
    (offsets : List ℚ) : ℚ × List SnapGuide :=
  offsets.foldl (snapStep points base gt) (base, [])

/-- applySnapping: snap a candidate box (x, y, width, height) against the
snap points of the current page, returning the snapped position and the
emitted guides (x-axis guides first, then y-axis guides). -/
def applySnapping (anns : List Annot) (curPage : ℕ) (dimW dimH : ℚ)
    (x y w h : ℚ) (excludeId : String) : ℚ × ℚ × List SnapGuide :=
  let pts := getSnapPoints anns curPage dimW dimH excludeId
  let rx := snapFold pts.2 x GuideType.vertical [x, x + w / 2, x + w]
  let ry := snapFold pts.1 y GuideType.horizontal [y, y + h / 2, y + h]
  (rx.1, ry.1, rx.2 ++ ry.2)

/-- Drag branch of handleMouseMove: clamp the raw pointer-derived position
to the page bounds minus the box size, then run the snap engine, then update
the selected annotation's position; returns none when no annotation has the
selected id (the handler returns without changing state). -/
def dragStep (anns : List Annot) (selectedId : String) (curPage : ℕ)
    (dimW dimH : ℚ) (px py ox oy : ℚ) :
    Option (List Annot × List SnapGuide) :=
  (anns.find? (fun a => a.id == selectedId)).map (fun ann =>
    let rawX := maxQ 0 (minQ (dimW - ann.width) (px - ox))
    let rawY := maxQ 0 (minQ (dimH - ann.height) (py - oy))
    let s := applySnapping anns curPage dimW dimH rawX rawY ann.width ann.height selectedId
    (anns.map (fun a =>
      if a.id == selectedId then { a with x := s.1, y := s.2.1 } else a),
     s.2.2))

/-- Resize corner (type ResizeCorner, excluding null). -/
inductive Corner
  | se
  | sw
  | ne
  | nw
deriving DecidableEq

/-- The geometry recorded at resize start (resizeStart state). -/
structure ResizeStart where
  width : ℚ
  height : ℚ
  annX : ℚ
  annY : ℚ
deriving DecidableEq

/-- A box produced by one resize step. -/
structure Box where
  x : ℚ
  y : ℚ
  width : ℚ
  height : ℚ
deriving DecidableEq

/-- Resize branch of handleMouseMove: corner-aware resize with minimum
dimensions and overflow absorption when the position would go negative. -/
def resizeStep (c : Corner) (rs : ResizeStart) (dx dy : ℚ) : Box :=
  match c with
  | Corner.se =>
      ⟨rs.annX, rs.annY, maxQ minWidth (rs.width + dx), maxQ minHeight (rs.height + dy)⟩
  | Corner.sw =>
      let newX := rs.annX + dx
      let newWidth := maxQ minWidth (rs.width + (-dx))
      let newHeight := maxQ minHeight (rs.height + dy)
      if newX < 0 then ⟨0, rs.annY, newWidth + newX, newHeight⟩
      else ⟨newX, rs.annY, newWidth, newHeight⟩
  | Corner.ne =>
      let newY := rs.annY + dy
      let newWidth := maxQ minWidth (rs.width + dx)
      let newHeight := maxQ minHeight (rs.height + (-dy))
      if newY < 0 then ⟨rs.annX, 0, newWidth, newHeight + newY⟩
      else ⟨rs.annX, newY, newWidth, newHeight⟩
  | Corner.nw =>
      let newX := rs.annX + dx
      let newY := rs.annY + dy
      let newWidth := maxQ minWidth (rs.width + (-dx))
      let newHeight := maxQ minHeight (rs.height + (-dy))
      let r1 := if newX < 0 then (0, newWidth + newX) else (newX, newWidth)
      let r2 := if newY < 0 then (0, newHeight + newY) else (newY, newHeight)
      ⟨r1.1, r2.1, r1.2, r2.2⟩

/-- Output transform inside handleSave: convert an annotation from the
rotated visual top-left space to the unrotated bottom-left MediaBox space,
branching on the page rotation; baselineOffset = fontSize * 0.8. -/
def toDocumentSpace (info : PageInfo) (a : Annot) : ℚ × ℚ :=
  let baselineOffset := a.fontSize * 0.8
  if info.rotation = 0 then
    (a.x + info.offsetX, info.height - a.y - baselineOffset + info.offsetY)
  else if info.rotation = 90 then
    (a.y + info.offsetX, a.x + baselineOffset + info.offsetY)
  else if info.rotation = 180 then
    (info.width - a.x - info.offsetX, a.y + baselineOffset + info.offsetY)
  else if info.rotation = 270 then
    (info.height - a.y + info.offsetX, info.width - a.x - baselineOffset + info.offsetY)
  else
    (a.x + info.offsetX, info.height - a.y - baselineOffset + info.offsetY)

/-- Arguments of one Document Mutator call (interface AddTextOptions plus
the rotation passed by handleSave). -/
structure AddTextOpts where
  page : ℕ
  x : ℚ
  y : ℚ
  fontSize : ℚ
  color : String
  rotation : ℤ
deriving DecidableEq

/-- Fallback page geometry used by handleSave when pageInfos has no entry
for the annotation's page (A4 portrait, unrotated). -/
def defaultInfo : PageInfo :=
  ⟨595.276, 841.890, 0, 0, 0, 595.276, 841.890⟩

/-- JavaScript String.prototype.trim: strip whitespace characters from
both ends of the string. -/
def jsTrim (s : String) : String :=
  String.mk (((s.data.dropWhile Char.isWhitespace).reverse.dropWhile
    Char.isWhitespace).reverse)

/-- handleSave, modelled as a pure outcome: the user-visible error message
if any, the sequence of Document Mutator (addTextToPDF) calls made, and the
annotation store after the call (handleSave never mutates it). -/
def handleSave (hasFile : Bool) (anns : List Annot) (infos : List PageInfo) :
    Option String × List AddTextOpts × List Annot :=
  if !hasFile then (none, [], anns)
  else
    let nonEmpty := anns.filter (fun a => jsTrim a.text != "")
    if nonEmpty.length = 0 then
      (some "Please add at least one text annotation", [], anns)
    else
      (none,
       nonEmpty.map (fun a =>
         let info := (infos.getD (a.page - 1) defaultInfo)
         let p := toDocumentSpace info a
         ⟨a.page, p.1, p.2, a.fontSize, a.color, info.rotation⟩),
       anns)

/-- The display-surface rectangle returned by getBoundingClientRect. -/
structure Rect where
  left : ℚ
  top : ℚ
  width : ℚ
  height : ℚ
deriving DecidableEq

/-- getPositionInPoints: convert a pointer position to PDF points relative
to the page content area, clamped to the effective page size; returns (0,0)
when the display surface is not mounted (pageRef.current is null). -/
def getPositionInPoints (mounted : Option Rect) (clientX clientY : ℚ)
    (effectiveScale : ℚ) (dimW dimH : ℚ) : ℚ × ℚ :=
  match mounted with
  | none => (0, 0)
  | some rect =>
      let borderWidth := 4 * effectiveScale
      let contentX := clientX - rect.left - borderWidth
      let contentY := clientY - rect.top - borderWidth
      let contentWidth := rect.width - 2 * borderWidth
      let contentHeight := rect.height - 2 * borderWidth
      let x := contentX / contentWidth * dimW
      let y := contentY / contentHeight * dimH
      (maxQ 0 (minQ dimW x), maxQ 0 (minQ dimH y))

/-- The annotation built by handlePageClick in place-text mode: empty text,
the freshly generated id, constant default width 120 points and default
height fontSize * 2. -/
def createAnnot (freshId : String) (x y : ℚ) (page : ℕ) (fontSize : ℚ)
    (color : String) : Annot :=
  ⟨freshId, "", x, y, page, fontSize, color, 120, fontSize * 2⟩

/-- handlePageClick in place-text mode: append the new annotation to the
store. The id is generated from the clock and a random number; it is
modelled as an input. -/
def handlePageClick (anns : List Annot) (freshId : String) (x y : ℚ)
    (curPage : ℕ) (fontSize : ℚ) (color : String) : List Annot :=
  anns ++ [createAnnot freshId x y (curPage + 1) fontSize color]

/-- pasteAnnot (pasteAnnotation): duplicate the clipboard annotation onto
the current page, offset by 10 points and bounded above by the page size
minus the box size (no lower clamp at 0). -/
def pasteAnnot (clip : Annot) (dimW dimH : ℚ) (curPage : ℕ)
    (newId : String) : Annot :=
  { clip with
    id := newId,
    x := minQ (clip.x + 10) (dimW - clip.width),
    y := minQ (clip.y + 10) (dimH - clip.height),
    page := curPage + 1 }

/-- A history snapshot is a full copy of the annotation list. -/
abbrev Snapshot := List Annot

/-- The undo/redo state: the snapshot list and the current index. -/
structure HistState where
  history : List Snapshot
  index : ℕ
deriving DecidableEq

/-- The initial history: one empty snapshot, index 0. -/
def initHist : HistState := ⟨[[]], 0⟩

/-- pushToHistory: truncate the history after the current index, append the
new snapshot, drop the oldest snapshot when MAX_HISTORY is exceeded, and
advance the index (capped at MAX_HISTORY - 1). -/
def pushToHistory (s : Snapshot) (st : HistState) : HistState :=
  let newHistory := st.history.take (st.index + 1) ++ [s]
  let trimmed := if MAX_HISTORY < newHistory.length then newHistory.tail else newHistory
  ⟨trimmed, min (st.index + 1) (MAX_HISTORY - 1)⟩

/-- undo: step the index back when possible; the restored annotation list
is the snapshot at the new index. -/
def undo (st : HistState) : HistState :=
  if 0 < st.index then ⟨st.history, st.index - 1⟩ else st

/-- redo: step the index forward when not at the tail. -/
def redo (st : HistState) : HistState :=
  if st.index < st.history.length - 1 then ⟨st.history, st.index + 1⟩ else st

/-- canRedo: the index is strictly before the tail of the history. -/
def canRedo (st : HistState) : Bool :=
  decide (st.index < st.history.length - 1)

/-- The snapshot the state currently denotes (what undo/redo restore). -/
def curSnapshot (st : HistState) : Option Snapshot :=
  st.history[st.index]?

/-- Push a sequence of snapshots in order. -/
def pushAll (l : List Snapshot) (st : HistState) : HistState :=
  l.foldl (fun st s => pushToHistory s st) st

/-- A sample annotation used in concrete runs: a 52 by 30 points box on
page 1. Its width exceeds half the width of a 100-point page, which makes
its right edge snap to the page center when its left edge sits at 0. -/
def cexAnn : Annot := ⟨"a", "t", 40, 50, 1, 16, "#000000", 52, 30⟩

/-- The sibling annotation of the snapping counterexample: its left edge,
right edge and the page edges together give several snap candidates within
threshold of distinct offsets of the dragged box. -/
def c5sib : Annot := ⟨"A", "t", 15, 300, 1, 16, "#000000", 16, 40⟩

/-- The sibling annotation of the snap witness scenario: its right edge
sits at 40, within threshold of the dragged box's left edge at 43. -/
def c5A : Annot := ⟨"A", "t", 10, 300, 1, 16, "#000000", 30, 40⟩

/-- A clipboard annotation larger than an A4 page in both dimensions. -/
def clipBig : Annot := ⟨"c", "t", 5, 5, 1, 16, "#000000", 700, 900⟩

/-- The resize-start geometry of the resize witness: a valid 100 by 50 box
at position (5, 5). -/
def cexRS : ResizeStart := ⟨100, 50, 5, 5⟩

/-- absQ agrees with the absolute value on rationals. -/
lemma absQ_eq (q : ℚ) : absQ q = |q| := by
  rcases lt_or_le q 0 with h | h
  · simp [absQ, h, abs_of_neg h]
  · simp [absQ, not_lt.mpr h, abs_of_nonneg h]

/-- minQ agrees with the minimum on rationals. -/
lemma minQ_eq (a b : ℚ) : minQ a b = min a b := by
  simp [minQ, min_def]

/-- maxQ agrees with the maximum on rationals. -/
lemma maxQ_eq (a b : ℚ) : maxQ a b = max a b := by
  simp [maxQ, max_def]

/-- A matching snap point moves a coordinate by the difference between the
snap point and the offset, so every snapStep leaves the accumulated
coordinate strictly within SNAP_THRESHOLD of the unsnapped coordinate. -/
lemma snapStep_dist (points : List ℚ) (base : ℚ) (gt : GuideType)
    (acc : ℚ × List SnapGuide) (xp : ℚ)
    (h : |acc.1 - base| < SNAP_THRESHOLD) :
    |(snapStep points base gt acc xp).1 - base| < SNAP_THRESHOLD := by
  unfold snapStep
  cases hf : points.find? (fun sp => withinSnap xp sp) with
  | none => simpa using h
  | some sp =>
      have hw := List.find?_some hf
      have hlt : absQ (xp - sp) < SNAP_THRESHOLD := of_decide_eq_true hw
      rw [absQ_eq] at hlt
      simp only []
      have : base + (sp - xp) - base = -(xp - sp) := by ring
      rw [this, abs_neg]
      exact hlt

/-- The snapped coordinate stays strictly within SNAP_THRESHOLD of the
coordinate snapFold starts from. -/
lemma snapFold_dist (points : List ℚ) (base : ℚ) (gt : GuideType)
    (offsets : List ℚ) :
    |(snapFold points base gt offsets).1 - base| < SNAP_THRESHOLD := by
  have main : ∀ (offs : List ℚ) (acc : ℚ × List SnapGuide),
      |acc.1 - base| < SNAP_THRESHOLD →
      |(offs.foldl (snapStep points base gt) acc).1 - base| < SNAP_THRESHOLD := by
    intro offs
    induction offs with
    | nil => intro acc h; simpa using h
    | cons xp offs ih =>
        intro acc h
        exact ih _ (snapStep_dist points base gt acc xp h)
  refine main offsets (base, []) ?_
  simp [SNAP_THRESHOLD]

/-- Every guide emitted by snapFold carries the orientation it was given. -/
lemma snapFold_types (points : List ℚ) (base : ℚ) (gt : GuideType)
    (offsets : List ℚ) :
    ∀ g ∈ (snapFold points base gt offsets).2, g.type = gt := by
  have main : ∀ (offs : List ℚ) (acc : ℚ × List SnapGuide),
      (∀ g ∈ acc.2, g.type = gt) →
      ∀ g ∈ (offs.foldl (snapStep points base gt) acc).2, g.type = gt := by
    intro offs
    induction offs with
    | nil => intro acc h; simpa using h
    | cons xp offs ih =>
        intro acc h
        refine ih _ ?_
        unfold snapStep
        cases hf : points.find? (fun sp => withinSnap xp sp) with
        | none => simpa using h
        | some sp =>
            intro g hg
            simp only [List.mem_append, List.mem_singleton] at hg
            rcases hg with hg | hg
            · exact h g hg
            · rw [hg]
  intro g hg
  exact main offsets (base, []) (by simp) g hg

/-- C1: the Output Transformer computes the document-space position of a
saved annotation by the four-branch formula — for rotation 0 the pair
(ax + offsetX, pageHeight - ay - baselineOffset + offsetY), for 90 the pair
(ay + offsetX, ax + baselineOffset + offsetY), for 180 the pair
(pageWidth - ax - offsetX, ay + baselineOffset + offsetY), for 270 the pair
(pageHeight - ay + offsetX, pageWidth - ax - baselineOffset + offsetY),
with baselineOffset = 0.8 * fontSize; every rotation outside
0, 90, 180, 270 falls back to the rotation-0 formula. -/
theorem C1_output_transform (info : PageInfo) (a : Annot) :
    (info.rotation = 0 →
      toDocumentSpace info a =
        (a.x + info.offsetX, info.height - a.y - a.fontSize * 0.8 + info.offsetY)) ∧
    (info.rotation = 90 →
      toDocumentSpace info a =
        (a.y + info.offsetX, a.x + a.fontSize * 0.8 + info.offsetY)) ∧
    (info.rotation = 180 →
      toDocumentSpace info a =
        (info.width - a.x - info.offsetX, a.y + a.fontSize * 0.8 + info.offsetY)) ∧
    (info.rotation = 270 →
      toDocumentSpace info a =
        (info.height - a.y + info.offsetX, info.width - a.x - a.fontSize * 0.8 + info.offsetY)) ∧
    (info.rotation ≠ 0 → info.rotation ≠ 90 → info.rotation ≠ 180 → info.rotation ≠ 270 →
      toDocumentSpace info a =
        (a.x + info.offsetX, info.height - a.y - a.fontSize * 0.8 + info.offsetY)) := by
  refine ⟨?_, ?_, ?_, ?_, ?_⟩
  · intro h
    simp [toDocumentSpace, h]
  · intro h
    simp [toDocumentSpace, h]
  · intro h
    simp [toDocumentSpace, h]
  · intro h
    simp [toDocumentSpace, h]
  · intro h0 h90 h180 h270
    simp [toDocumentSpace, h0, h90, h180, h270]

/-- Witness for C1: on a 595 by 842 page rotated 90 degrees with offsets
(3, 4), an annotation clicked at display (0, 0) with font size 16 maps to
document-space (3, 84/5), that is (offsetX, baselineOffset + offsetY). -/
theorem C1_output_transform_witness :
    toDocumentSpace ⟨595, 842, 3, 4, 90, 842, 595⟩ ⟨"b", "hi", 0, 0, 1, 16, "#000000", 120, 32⟩ =
      (3, 84 / 5) :=
  ((C1_output_transform ⟨595, 842, 3, 4, 90, 842, 595⟩
      ⟨"b", "hi", 0, 0, 1, 16, "#000000", 120, 32⟩).2.1 rfl).trans (by norm_num)

/-- Snapping moves each coordinate of a candidate position by strictly
less than SNAP_THRESHOLD. -/
lemma applySnapping_dist (anns : List Annot) (curPage : ℕ) (dimW dimH : ℚ)
    (x y w h : ℚ) (exId : String) :
    |(applySnapping anns curPage dimW dimH x y w h exId).1 - x| < SNAP_THRESHOLD ∧
    |(applySnapping anns curPage dimW dimH x y w h exId).2.1 - y| < SNAP_THRESHOLD := by
  constructor
  · simp only [applySnapping]
    exact snapFold_dist _ _ _ _
  · simp only [applySnapping]
    exact snapFold_dist _ _ _ _

/-- The drag clamp maxQ 0 (minQ c v) lands in [0, c] whenever 0 ≤ c. -/
lemma clamp_mem (c v : ℚ) (hc : 0 ≤ c) :
    0 ≤ maxQ 0 (minQ c v) ∧ maxQ 0 (minQ c v) ≤ c := by
  rw [maxQ_eq, minQ_eq]
  exact ⟨le_max_left _ _, max_le hc (min_le_left _ _)⟩

/-- Counterexample to C2: on a 100 by 100 page, dragging the 52-wide
annotation cexAnn to raw position (0, 50) — already clamped in bounds —
makes its right edge (at 52) snap to the page center (50), moving x to -2,
which violates 0 ≤ x. -/
theorem C2_counterexample :
    dragStep [cexAnn] "a" 0 100 100 0 50 0 0 =
      some ([{ cexAnn with x := -2, y := 50 }],
        [⟨GuideType.vertical, 0⟩, ⟨GuideType.vertical, 50⟩, ⟨GuideType.horizontal, 50⟩]) ∧
    ¬ (0 : ℚ) ≤ -2 := by
  constructor
  · norm_num [dragStep, applySnapping, snapFold, snapStep, getSnapPoints, withinSnap,
      absQ, minQ, maxQ, SNAP_THRESHOLD, List.find?, cexAnn, List.filter]
  · norm_num

/-- C2 amended: after a pointer-move while dragging, the clamp puts the raw
position inside [0, pageWidth - width] times [0, pageHeight - height], but
snapping may then move each coordinate by strictly less than SNAP_THRESHOLD,
so the final position of the dragged annotation only satisfies the bounds
relaxed by SNAP_THRESHOLD on each side. -/
theorem C2_drag_bounds (anns : List Annot) (selectedId : String) (curPage : ℕ)
    (dimW dimH px py ox oy : ℚ) (ann : Annot) (res : List Annot × List SnapGuide)
    (hfind : anns.find? (fun a => a.id == selectedId) = some ann)
    (hw : ann.width ≤ dimW) (hh : ann.height ≤ dimH)
    (hres : dragStep anns selectedId curPage dimW dimH px py ox oy = some res) :
    ∀ b ∈ res.1, b.id = selectedId →
      -SNAP_THRESHOLD < b.x ∧ b.x < dimW - ann.width + SNAP_THRESHOLD ∧
      -SNAP_THRESHOLD < b.y ∧ b.y < dimH - ann.height + SNAP_THRESHOLD := by
  simp only [dragStep, hfind, Option.map_some'] at hres
  have hres' := Option.some.inj hres
  subst hres'
  intro b hb hid
  obtain ⟨a, ha, rfl⟩ := List.mem_map.mp hb
  by_cases hida : (a.id == selectedId) = true
  · rw [if_pos hida]
    dsimp only
    have hdx := (applySnapping_dist anns curPage dimW dimH
      (maxQ 0 (minQ (dimW - ann.width) (px - ox)))
      (maxQ 0 (minQ (dimH - ann.height) (py - oy)))
      ann.width ann.height selectedId).1
    have hdy := (applySnapping_dist anns curPage dimW dimH
      (maxQ 0 (minQ (dimW - ann.width) (px - ox)))
      (maxQ 0 (minQ (dimH - ann.height) (py - oy)))
      ann.width ann.height selectedId).2
    have hbx := clamp_mem (dimW - ann.width) (px - ox) (by linarith)
    have hby := clamp_mem (dimH - ann.height) (py - oy) (by linarith)
    obtain ⟨hdx1, hdx2⟩ := abs_lt.mp hdx
    obtain ⟨hdy1, hdy2⟩ := abs_lt.mp hdy
    refine ⟨by linarith [hbx.1, hbx.2], by linarith [hbx.1, hbx.2],
      by linarith [hby.1, hby.2], by linarith [hby.1, hby.2]⟩
  · rw [if_neg hida] at hid ⊢
    exact absurd (by simpa using hid) hida

/-- Witness for C2 amended: in the counterexample scenario the snapped
position (-2, 50) does satisfy the relaxed bounds. -/
theorem C2_drag_bounds_witness :
    -SNAP_THRESHOLD < ({ cexAnn with x := -2, y := 50 } : Annot).x ∧
    ({ cexAnn with x := -2, y := 50 } : Annot).x < 100 - cexAnn.width + SNAP_THRESHOLD ∧
    -SNAP_THRESHOLD < ({ cexAnn with x := -2, y := 50 } : Annot).y ∧
    ({ cexAnn with x := -2, y := 50 } : Annot).y < 100 - cexAnn.height + SNAP_THRESHOLD :=
  C2_drag_bounds [cexAnn] "a" 0 100 100 0 50 0 0 cexAnn
    ([{ cexAnn with x := -2, y := 50 }],
      [⟨GuideType.vertical, 0⟩, ⟨GuideType.vertical, 50⟩, ⟨GuideType.horizontal, 50⟩])
    (by norm_num [List.find?, cexAnn])
    (by norm_num [cexAnn]) (by norm_num [cexAnn])
    (by norm_num [dragStep, applySnapping, snapFold, snapStep, getSnapPoints, withinSnap,
      absQ, minQ, maxQ, SNAP_THRESHOLD, List.find?, cexAnn, List.filter])
    { cexAnn with x := -2, y := 50 } (by norm_num) (by norm_num [cexAnn])

/-- C3: one resize step from a valid box keeps width at least 20, height at
least 10 and position nonnegative, for every corner and pointer delta; and
when the corner rule would push x (resp. y) negative, the position clamps
to 0 and the width (resp. height) absorbs the overflow, being reduced by
exactly the amount the position went negative. -/
theorem C3_resize_invariants (c : Corner) (rs : ResizeStart) (dx dy : ℚ)
    (hw : minWidth ≤ rs.width) (hh : minHeight ≤ rs.height)
    (hx : 0 ≤ rs.annX) (hy : 0 ≤ rs.annY) :
    minWidth ≤ (resizeStep c rs dx dy).width ∧
    minHeight ≤ (resizeStep c rs dx dy).height ∧
    0 ≤ (resizeStep c rs dx dy).x ∧
    0 ≤ (resizeStep c rs dx dy).y ∧
    ((c = Corner.sw ∨ c = Corner.nw) → rs.annX + dx < 0 →
      (resizeStep c rs dx dy).x = 0 ∧
      (resizeStep c rs dx dy).width = maxQ minWidth (rs.width + -dx) + (rs.annX + dx)) ∧
    ((c = Corner.ne ∨ c = Corner.nw) → rs.annY + dy < 0 →
      (resizeStep c rs dx dy).y = 0 ∧
      (resizeStep c rs dx dy).height = maxQ minHeight (rs.height + -dy) + (rs.annY + dy)) := by
  cases c with
  | se =>
      simp only [resizeStep]
      refine ⟨?_, ?_, hx, hy, ?_, ?_⟩
      · rw [maxQ_eq]; exact le_max_left _ _
      · rw [maxQ_eq]; exact le_max_left _ _
      · rintro (h | h) <;> exact Corner.noConfusion h
      · rintro (h | h) <;> exact Corner.noConfusion h
  | sw =>
      simp only [resizeStep]
      by_cases h0 : rs.annX + dx < 0
      · rw [if_pos h0]
        have hdx : dx < 0 := by linarith
        have hmax : maxQ minWidth (rs.width + -dx) = rs.width + -dx := by
          rw [maxQ_eq]; exact max_eq_right (by linarith)
        refine ⟨?_, ?_, le_refl 0, hy, ?_, ?_⟩
        · show minWidth ≤ maxQ minWidth (rs.width + -dx) + (rs.annX + dx)
          rw [hmax]; linarith
        · show minHeight ≤ maxQ minHeight (rs.height + dy)
          rw [maxQ_eq]; exact le_max_left _ _
        · intro _ _; exact ⟨rfl, rfl⟩
        · rintro (h | h) <;> exact Corner.noConfusion h
      · rw [if_neg h0]
        refine ⟨?_, ?_, by dsimp only; linarith, hy, ?_, ?_⟩
        · show minWidth ≤ maxQ minWidth (rs.width + -dx)
          rw [maxQ_eq]; exact le_max_left _ _
        · show minHeight ≤ maxQ minHeight (rs.height + dy)
          rw [maxQ_eq]; exact le_max_left _ _
        · intro _ hneg; exact absurd hneg h0
        · rintro (h | h) <;> exact Corner.noConfusion h
  | ne =>
      simp only [resizeStep]
      by_cases h0 : rs.annY + dy < 0
      · rw [if_pos h0]
        have hdy : dy < 0 := by linarith
        have hmax : maxQ minHeight (rs.height + -dy) = rs.height + -dy := by
          rw [maxQ_eq]; exact max_eq_right (by linarith)
        refine ⟨?_, ?_, hx, le_refl 0, ?_, ?_⟩
        · show minWidth ≤ maxQ minWidth (rs.width + dx)
          rw [maxQ_eq]; exact le_max_left _ _
        · show minHeight ≤ maxQ minHeight (rs.height + -dy) + (rs.annY + dy)
          rw [hmax]; linarith
        · rintro (h | h) <;> exact Corner.noConfusion h
        · intro _ _; exact ⟨rfl, rfl⟩
      · rw [if_neg h0]
        refine ⟨?_, ?_, hx, by dsimp only; linarith, ?_, ?_⟩
        · show minWidth ≤ maxQ minWidth (rs.width + dx)
          rw [maxQ_eq]; exact le_max_left _ _
        · show minHeight ≤ maxQ minHeight (rs.height + -dy)
          rw [maxQ_eq]; exact le_max_left _ _
        · rintro (h | h) <;> exact Corner.noConfusion h
        · intro _ hneg; exact absurd hneg h0
  | nw =>
      simp only [resizeStep]
      by_cases h0 : rs.annX + dx < 0 <;> by_cases h1 : rs.annY + dy < 0
      · rw [if_pos h0, if_pos h1]
        have hdx : dx < 0 := by linarith
        have hdy : dy < 0 := by linarith
        have hmaxw : maxQ minWidth (rs.width + -dx) = rs.width + -dx := by
          rw [maxQ_eq]; exact max_eq_right (by linarith)
        have hmaxh : maxQ minHeight (rs.height + -dy) = rs.height + -dy := by
          rw [maxQ_eq]; exact max_eq_right (by linarith)
        refine ⟨?_, ?_, le_refl 0, le_refl 0, ?_, ?_⟩
        · show minWidth ≤ maxQ minWidth (rs.width + -dx) + (rs.annX + dx)
          rw [hmaxw]; linarith
        · show minHeight ≤ maxQ minHeight (rs.height + -dy) + (rs.annY + dy)
          rw [hmaxh]; linarith
        · intro _ _; exact ⟨rfl, rfl⟩
        · intro _ _; exact ⟨rfl, rfl⟩
      · rw [if_pos h0, if_neg h1]
        have hdx : dx < 0 := by linarith
        have hmaxw : maxQ minWidth (rs.width + -dx) = rs.width + -dx := by
          rw [maxQ_eq]; exact max_eq_right (by linarith)
        refine ⟨?_, ?_, le_refl 0, by dsimp only; linarith, ?_, ?_⟩
        · show minWidth ≤ maxQ minWidth (rs.width + -dx) + (rs.annX + dx)
          rw [hmaxw]; linarith
        · show minHeight ≤ maxQ minHeight (rs.height + -dy)
          rw [maxQ_eq]; exact le_max_left _ _
        · intro _ _; exact ⟨rfl, rfl⟩
        · intro _ hneg; exact absurd hneg h1
      · rw [if_neg h0, if_pos h1]
        have hdy : dy < 0 := by linarith
        have hmaxh : maxQ minHeight (rs.height + -dy) = rs.height + -dy := by
          rw [maxQ_eq]; exact max_eq_right (by linarith)
        refine ⟨?_, ?_, by dsimp only; linarith, le_refl 0, ?_, ?_⟩
        · show minWidth ≤ maxQ minWidth (rs.width + -dx)
          rw [maxQ_eq]; exact le_max_left _ _
        · show minHeight ≤ maxQ minHeight (rs.height + -dy) + (rs.annY + dy)
          rw [hmaxh]; linarith
        · intro _ hneg; exact absurd hneg h0
        · intro _ _; exact ⟨rfl, rfl⟩
      · rw [if_neg h0, if_neg h1]
        refine ⟨?_, ?_, by dsimp only; linarith, by dsimp only; linarith, ?_, ?_⟩
        · show minWidth ≤ maxQ minWidth (rs.width + -dx)
          rw [maxQ_eq]; exact le_max_left _ _
        · show minHeight ≤ maxQ minHeight (rs.height + -dy)
          rw [maxQ_eq]; exact le_max_left _ _
        · intro _ hneg; exact absurd hneg h0
        · intro _ hneg; exact absurd hneg h1

/-- Witness for C3: a southwest resize of the valid box cexRS by
dx = -30 pushes x to -25, so the position clamps to 0 and the width
absorbs the 25-point overflow while staying at least 20. -/
theorem C3_resize_invariants_witness :
    minWidth ≤ (resizeStep Corner.sw cexRS (-30) 0).width ∧
    0 ≤ (resizeStep Corner.sw cexRS (-30) 0).x ∧
    (resizeStep Corner.sw cexRS (-30) 0).x = 0 ∧
    (resizeStep Corner.sw cexRS (-30) 0).width =
      maxQ minWidth (cexRS.width + -(-30)) + (cexRS.annX + (-30)) := by
  have h := C3_resize_invariants Corner.sw cexRS (-30) 0
    (by norm_num [cexRS, minWidth]) (by norm_num [cexRS, minHeight])
    (by norm_num [cexRS]) (by norm_num [cexRS])
  have habs := h.2.2.2.2.1 (Or.inl rfl) (by norm_num [cexRS])
  exact ⟨h.1, h.2.2.1, habs.1, habs.2⟩

/-- Pushing onto a state whose index sits at the tail of a history with
room to spare appends the snapshot and advances the index. -/
lemma pushToHistory_of_full (s : Snapshot) (st : HistState)
    (h1 : st.index + 1 = st.history.length)
    (h2 : st.history.length + 1 ≤ MAX_HISTORY) :
    pushToHistory s st = ⟨st.history ++ [s], st.index + 1⟩ := by
  have ht : st.history.take (st.index + 1) = st.history := by
    rw [h1]; exact List.take_length _
  simp only [pushToHistory]
  rw [ht]
  have hc : ¬ MAX_HISTORY < (st.history ++ [s]).length := by
    simp only [List.length_append, List.length_singleton]; omega
  rw [if_neg hc]
  have hm : min (st.index + 1) (MAX_HISTORY - 1) = st.index + 1 :=
    min_eq_left (by omega)
  rw [hm]

/-- Pushing a list of snapshots from a tail state with enough capacity
appends them all and moves the index past them. -/
lemma pushAll_full (l : List Snapshot) :
    ∀ st : HistState, st.index + 1 = st.history.length →
    st.history.length + l.length ≤ MAX_HISTORY →
    pushAll l st = ⟨st.history ++ l, st.index + l.length⟩ := by
  induction l with
  | nil =>
      intro st h1 h2
      simp [pushAll]
  | cons s t ih =>
      intro st h1 h2
      have hlen : (s :: t).length = t.length + 1 := List.length_cons s t
      have h2' : st.history.length + 1 ≤ MAX_HISTORY := by omega
      have step : pushAll (s :: t) st = pushAll t (pushToHistory s st) := by
        simp [pushAll]
      rw [step, pushToHistory_of_full s st h1 h2']
      have hrec := ih ⟨st.history ++ [s], st.index + 1⟩
        (by simp only [List.length_append, List.length_singleton]; omega)
        (by simp only [List.length_append, List.length_singleton]; omega)
      rw [hrec]
      have hh : st.history ++ [s] ++ t = st.history ++ s :: t := by simp
      rw [hh]
      have hi : st.index + 1 + t.length = st.index + (s :: t).length := by
        simp only [List.length_cons]; omega
      rw [hi]

/-- C4: starting from the fresh history and pushing the snapshots of l in
order (within capacity), the index sits at the tail; undo restores the
snapshot recorded one push earlier (the state after the first N-1 pushes,
the initial empty snapshot when N = 1); redo immediately after that undo
restores the pre-undo snapshot; a push performed at the undone index keeps
only the history up to that index plus the new snapshot, discarding the
redo suffix; and after any in-capacity push canRedo is false. -/
theorem C4_history (l : List Snapshot) (hN : 1 ≤ l.length)
    (hcap : l.length + 1 ≤ MAX_HISTORY) :
    (pushAll l initHist).index = l.length ∧
    (pushAll l initHist).history = [] :: l ∧
    curSnapshot (pushAll l initHist) = ([] :: l)[l.length]? ∧
    curSnapshot (undo (pushAll l initHist)) = ([] :: l)[l.length - 1]? ∧
    curSnapshot (redo (undo (pushAll l initHist))) = curSnapshot (pushAll l initHist) ∧
    (∀ s : Snapshot,
      (pushToHistory s (undo (pushAll l initHist))).history
        = ([] :: l).take l.length ++ [s]) ∧
    (∀ (st : HistState) (s : Snapshot), st.index + 2 ≤ MAX_HISTORY →
      canRedo (pushToHistory s st) = false) := by
  have hlen1 : initHist.history.length = 1 := rfl
  have hfull := pushAll_full l initHist rfl (by omega)
  have hst : pushAll l initHist = ⟨[] :: l, l.length⟩ := by
    rw [hfull]; simp [initHist]
  rw [hst]
  have hundo : undo ⟨[] :: l, l.length⟩ = ⟨[] :: l, l.length - 1⟩ := by
    simp only [undo]
    rw [if_pos (by omega)]
  rw [hundo]
  have hredo : redo ⟨[] :: l, l.length - 1⟩ = ⟨[] :: l, l.length⟩ := by
    simp only [redo]
    rw [if_pos (by simp only [List.length_cons]; omega)]
    have hsucc : l.length - 1 + 1 = l.length := by omega
    rw [hsucc]
  refine ⟨rfl, rfl, rfl, rfl, by rw [hredo], ?_, ?_⟩
  · intro s
    simp only [pushToHistory]
    have ht : l.length - 1 + 1 = l.length := by omega
    rw [ht]
    have h3 : (([] :: l).take l.length).length = l.length := by
      rw [List.length_take]
      exact min_eq_left (by rw [List.length_cons]; omega)
    have hc : ¬ MAX_HISTORY < (([] :: l).take l.length ++ [s]).length := by
      simp only [List.length_append, h3, List.length_singleton]
      omega
    rw [if_neg hc]
  · intro st s hM
    simp only [pushToHistory, canRedo]
    have hlen : (st.history.take (st.index + 1) ++ [s]).length
        = min (st.index + 1) st.history.length + 1 := by
      simp only [List.length_append, List.length_take, List.length_singleton]
    have hminle := min_le_left (st.index + 1) st.history.length
    have hc : ¬ MAX_HISTORY < (st.history.take (st.index + 1) ++ [s]).length := by
      rw [hlen]; omega
    simp only [decide_eq_false_iff_not]
    rw [if_neg hc]
    rw [hlen]
    have hm2 : min (st.index + 1) (MAX_HISTORY - 1) = st.index + 1 :=
      min_eq_left (by omega)
    rw [hm2]
    omega

/-- Witness for C4: pushing the two snapshots [cexAnn] and [] leaves the
index at 2; undo restores the first pushed snapshot [cexAnn]; and a push at
the undone index reports no redo available. -/
theorem C4_history_witness :
    (pushAll [[cexAnn], []] initHist).index = 2 ∧
    curSnapshot (undo (pushAll [[cexAnn], []] initHist)) = some [cexAnn] ∧
    canRedo (pushToHistory [] (⟨[[], [cexAnn], []], 1⟩ : HistState)) = false := by
  have h := C4_history [[cexAnn], []] (by norm_num) (by norm_num [MAX_HISTORY])
  refine ⟨h.1, ?_, h.2.2.2.2.2.2 ⟨[[], [cexAnn], []], 1⟩ [] (by norm_num [MAX_HISTORY])⟩
  have h4 := h.2.2.2.1
  simpa using h4

/-- Counterexample to C5: dragging a 20-wide box to x = 3 on a 100-wide
page with sibling c5sib puts three distinct offsets within threshold of
three distinct snap points. Under first-match-wins the first match in scan
order (left edge against page edge 0) would set x to 0 and emit one
vertical guide; the code instead lets the last matching offset win
(x stays 3, snapped to the sibling's right edge) and emits three vertical
guides. -/
theorem C5_counterexample :
    applySnapping [c5sib] 0 100 1000 3 200 20 10 "b" =
      (3, 200, [⟨GuideType.vertical, 0⟩, ⟨GuideType.vertical, 15⟩,
        ⟨GuideType.vertical, 23⟩]) ∧
    (3 : ℚ) ≠ 0 ∧
    ([⟨GuideType.vertical, 0⟩, ⟨GuideType.vertical, 15⟩,
      ⟨GuideType.vertical, 23⟩] : List SnapGuide).length ≠ 1 := by
  refine ⟨?_, by norm_num, by norm_num⟩
  norm_num [applySnapping, snapFold, snapStep, getSnapPoints, withinSnap, absQ,
    SNAP_THRESHOLD, List.find?, c5sib, List.filter]

/-- C5 amended: within one offset the first snap point in scan order wins,
but across the three offsets of an axis a later matching offset overwrites
the snapped coordinate and each matching offset pushes a guide. When the
dragged box's left edge has a snap point t within threshold (first in scan
order for that offset) and its center and right edges match nothing, the
left edge snaps exactly to t and exactly one vertical guide is emitted,
at t — in particular with t the right edge of a same-page sibling. -/
theorem C5_first_match (anns : List Annot) (curPage : ℕ) (dimW dimH : ℚ)
    (x y w h : ℚ) (exId : String) (t : ℚ)
    (h1 : (getSnapPoints anns curPage dimW dimH exId).2.find?
      (fun sp => withinSnap x sp) = some t)
    (h2 : (getSnapPoints anns curPage dimW dimH exId).2.find?
      (fun sp => withinSnap (x + w / 2) sp) = none)
    (h3 : (getSnapPoints anns curPage dimW dimH exId).2.find?
      (fun sp => withinSnap (x + w) sp) = none) :
    (applySnapping anns curPage dimW dimH x y w h exId).1 = t ∧
    (applySnapping anns curPage dimW dimH x y w h exId).2.2.filter
      (fun g => g.type == GuideType.vertical) = [⟨GuideType.vertical, t⟩] := by
  have hx : snapFold (getSnapPoints anns curPage dimW dimH exId).2 x
      GuideType.vertical [x, x + w / 2, x + w] =
      (x + (t - x), [⟨GuideType.vertical, t⟩]) := by
    simp only [snapFold, List.foldl_cons, List.foldl_nil, snapStep, h1, h2, h3,
      List.nil_append]
  have happ : applySnapping anns curPage dimW dimH x y w h exId =
      (x + (t - x),
        (snapFold (getSnapPoints anns curPage dimW dimH exId).1 y
          GuideType.horizontal [y, y + h / 2, y + h]).1,
        [⟨GuideType.vertical, t⟩] ++
          (snapFold (getSnapPoints anns curPage dimW dimH exId).1 y
            GuideType.horizontal [y, y + h / 2, y + h]).2) := by
    simp only [applySnapping]
    rw [hx]
  constructor
  · rw [happ]
    show x + (t - x) = t
    ring
  · rw [happ]
    show (([⟨GuideType.vertical, t⟩] : List SnapGuide) ++
        (snapFold (getSnapPoints anns curPage dimW dimH exId).1 y
          GuideType.horizontal [y, y + h / 2, y + h]).2).filter
        (fun g => g.type == GuideType.vertical) = [⟨GuideType.vertical, t⟩]
    rw [List.filter_append]
    have hh : ((snapFold (getSnapPoints anns curPage dimW dimH exId).1 y
        GuideType.horizontal [y, y + h / 2, y + h]).2).filter
          (fun g => g.type == GuideType.vertical) = [] := by
      rw [List.filter_eq_nil_iff]
      intro g hg
      have hgt := snapFold_types (getSnapPoints anns curPage dimW dimH exId).1 y
        GuideType.horizontal [y, y + h / 2, y + h] g hg
      simp [hgt]
    rw [hh]
    simp

/-- Witness for C5 amended: dragging a 50-wide box to x = 43 near sibling
c5A, whose right edge sits at 40, snaps the left edge exactly to 40 with
exactly one vertical guide there. -/
theorem C5_first_match_witness :
    (applySnapping [c5A] 0 200 1000 43 200 50 10 "B").1 = 40 ∧
    (applySnapping [c5A] 0 200 1000 43 200 50 10 "B").2.2.filter
      (fun g => g.type == GuideType.vertical) = [⟨GuideType.vertical, 40⟩] :=
  C5_first_match [c5A] 0 200 1000 43 200 50 10 "B" 40
    (by norm_num [getSnapPoints, withinSnap, absQ, SNAP_THRESHOLD, List.find?,
      c5A, List.filter])
    (by norm_num [getSnapPoints, withinSnap, absQ, SNAP_THRESHOLD, List.find?,
      c5A, List.filter])
    (by norm_num [getSnapPoints, withinSnap, absQ, SNAP_THRESHOLD, List.find?,
      c5A, List.filter])

/-- C6: when save is invoked with a file loaded and every annotation's
trimmed text empty, handleSave surfaces the validation message, makes zero
Document Mutator calls and leaves the annotation store unchanged. -/
theorem C6_empty_save (anns : List Annot) (infos : List PageInfo)
    (h : ∀ a ∈ anns, jsTrim a.text = "") :
    handleSave true anns infos =
      (some "Please add at least one text annotation", [], anns) := by
  have hf : anns.filter (fun a => jsTrim a.text != "") = [] := by
    rw [List.filter_eq_nil_iff]
    intro a ha
    simp [h a ha]
  simp [handleSave, hf]

/-- Witness for C6: one annotation whose text is whitespace only. -/
theorem C6_empty_save_witness :
    handleSave true [⟨"a", "  ", 1, 2, 1, 16, "#000000", 120, 32⟩] [] =
      (some "Please add at least one text annotation", [],
        [⟨"a", "  ", 1, 2, 1, 16, "#000000", 120, 32⟩]) :=
  C6_empty_save [⟨"a", "  ", 1, 2, 1, 16, "#000000", 120, 32⟩] []
    (by intro a ha
        simp only [List.mem_singleton] at ha
        subst ha
        decide)

/-- C7: the pointer-to-document-units conversion is total, returns a pair
clamped to [0, effectiveWidth] times [0, effectiveHeight], and returns
(0, 0) when the display surface is not mounted. -/
theorem C7_pointer_conversion (mounted : Option Rect) (cx cy s dimW dimH : ℚ)
    (hW : 0 ≤ dimW) (hH : 0 ≤ dimH) :
    0 ≤ (getPositionInPoints mounted cx cy s dimW dimH).1 ∧
    (getPositionInPoints mounted cx cy s dimW dimH).1 ≤ dimW ∧
    0 ≤ (getPositionInPoints mounted cx cy s dimW dimH).2 ∧
    (getPositionInPoints mounted cx cy s dimW dimH).2 ≤ dimH ∧
    (mounted = none → getPositionInPoints mounted cx cy s dimW dimH = (0, 0)) := by
  cases mounted with
  | none =>
      exact ⟨le_refl 0, hW, le_refl 0, hH, fun _ => rfl⟩
  | some r =>
      have h1 := clamp_mem dimW ((cx - r.left - 4 * s) / (r.width - 2 * (4 * s)) * dimW) hW
      have h2 := clamp_mem dimH ((cy - r.top - 4 * s) / (r.height - 2 * (4 * s)) * dimH) hH
      exact ⟨h1.1, h1.2, h2.1, h2.2, fun hcon => Option.noConfusion hcon⟩

/-- Witness for C7: a concrete conversion on an A4-sized page. -/
theorem C7_pointer_conversion_witness :
    0 ≤ (getPositionInPoints (some ⟨0, 0, 800, 600⟩) 100 50 1 595 842).1 ∧
    (getPositionInPoints (some ⟨0, 0, 800, 600⟩) 100 50 1 595 842).1 ≤ 595 ∧
    0 ≤ (getPositionInPoints (some ⟨0, 0, 800, 600⟩) 100 50 1 595 842).2 ∧
    (getPositionInPoints (some ⟨0, 0, 800, 600⟩) 100 50 1 595 842).2 ≤ 842 ∧
    (some (⟨0, 0, 800, 600⟩ : Rect) = none →
      getPositionInPoints (some ⟨0, 0, 800, 600⟩) 100 50 1 595 842 = (0, 0)) :=
  C7_pointer_conversion (some ⟨0, 0, 800, 600⟩) 100 50 1 595 842
    (by norm_num) (by norm_num)

/-- Counterexample to C8: the default width of a newly created annotation
is the constant 120 points for every font size — it is not derived from
the current font size; only the default height (2 times the font size) is.
At font sizes 8 and 64 the widths coincide at 120 while the heights are
16 and 128. -/
theorem C8_counterexample :
    (createAnnot "a" 0 0 1 8 "#000000").width = 120 ∧
    (createAnnot "a" 0 0 1 64 "#000000").width = 120 ∧
    (createAnnot "a" 0 0 1 8 "#000000").height = 16 ∧
    (createAnnot "a" 0 0 1 64 "#000000").height = 128 := by
  refine ⟨rfl, rfl, ?_, ?_⟩
  · show (8 : ℚ) * 2 = 16
    norm_num
  · show (64 : ℚ) * 2 = 128
    norm_num

/-- C8 amended: a placement click appends a new annotation carrying the
freshly generated id — unique among the existing annotations — with the
constant default width 120 points and default height 2 times the current
font size. -/
theorem C8_create (anns : List Annot) (freshId : String) (x y : ℚ)
    (curPage : ℕ) (fs : ℚ) (col : String)
    (hfresh : ∀ a ∈ anns, a.id ≠ freshId) :
    (handlePageClick anns freshId x y curPage fs col).getLast?
      = some (createAnnot freshId x y (curPage + 1) fs col) ∧
    (createAnnot freshId x y (curPage + 1) fs col).id = freshId ∧
    (createAnnot freshId x y (curPage + 1) fs col).width = 120 ∧
    (createAnnot freshId x y (curPage + 1) fs col).height = fs * 2 ∧
    (handlePageClick anns freshId x y curPage fs col).length = anns.length + 1 ∧
    (∀ a ∈ (handlePageClick anns freshId x y curPage fs col).dropLast,
      a.id ≠ freshId) := by
  refine ⟨?_, rfl, rfl, rfl, ?_, ?_⟩
  · simp [handlePageClick]
  · simp [handlePageClick]
  · intro a ha
    rw [handlePageClick, List.dropLast_concat] at ha
    exact hfresh a ha

/-- Witness for C8 amended: clicking with font size 16 next to the existing
annotation cexAnn appends an annotation with the fresh id and height 32. -/
theorem C8_create_witness :
    (handlePageClick [cexAnn] "b" 1 2 0 16 "#000000").getLast?
      = some (createAnnot "b" 1 2 (0 + 1) 16 "#000000") ∧
    (createAnnot "b" 1 2 (0 + 1) 16 "#000000").height = 16 * 2 ∧
    (handlePageClick [cexAnn] "b" 1 2 0 16 "#000000").length = 2 := by
  have h := C8_create [cexAnn] "b" 1 2 0 16 "#000000"
    (by intro a ha
        simp only [List.mem_singleton] at ha
        subst ha
        simp [cexAnn])
  exact ⟨h.1, h.2.2.2.1, h.2.2.2.2.1⟩

/-- C9: a pointer-move while dragging keeps the annotation list's length
and order; every entry whose id is not the selected id is unchanged, and
the entry with the selected id changes only in its x and y fields. -/
theorem C9_drag_frame (anns : List Annot) (selectedId : String) (curPage : ℕ)
    (dimW dimH px py ox oy : ℚ) (res : List Annot × List SnapGuide)
    (hres : dragStep anns selectedId curPage dimW dimH px py ox oy = some res) :
    res.1.length = anns.length ∧
    ∀ (i : ℕ) (a b : Annot), anns[i]? = some a → res.1[i]? = some b →
      b.id = a.id ∧ b.text = a.text ∧ b.width = a.width ∧ b.height = a.height ∧
      b.page = a.page ∧ b.fontSize = a.fontSize ∧ b.color = a.color ∧
      (a.id ≠ selectedId → b = a) := by
  cases hfind : anns.find? (fun a => a.id == selectedId) with
  | none =>
      rw [dragStep, hfind] at hres
      exact Option.noConfusion hres
  | some ann =>
      simp only [dragStep, hfind, Option.map_some'] at hres
      have hres' := Option.some.inj hres
      subst hres'
      constructor
      · simp
      · intro i a b hga hgb
        rw [List.getElem?_map, hga, Option.map_some'] at hgb
        have hb := Option.some.inj hgb
        subst hb
        by_cases hid : (a.id == selectedId) = true
        · rw [if_pos hid]
          have heq : a.id = selectedId := by simpa using hid
          exact ⟨rfl, rfl, rfl, rfl, rfl, rfl, rfl, fun hne => absurd heq hne⟩
        · rw [if_neg hid]
          exact ⟨rfl, rfl, rfl, rfl, rfl, rfl, rfl, fun _ => rfl⟩

/-- Witness for C9: the concrete drag of cexAnn changes only its position
fields; the text is preserved. -/
theorem C9_drag_frame_witness :
    ([{ cexAnn with x := -2, y := 50 }] : List Annot).length = [cexAnn].length ∧
    ({ cexAnn with x := -2, y := 50 } : Annot).text = cexAnn.text := by
  have h := C9_drag_frame [cexAnn] "a" 0 100 100 0 50 0 0
    ([{ cexAnn with x := -2, y := 50 }],
      [⟨GuideType.vertical, 0⟩, ⟨GuideType.vertical, 50⟩, ⟨GuideType.horizontal, 50⟩])
    (by norm_num [dragStep, applySnapping, snapFold, snapStep, getSnapPoints,
      withinSnap, absQ, minQ, maxQ, SNAP_THRESHOLD, List.find?, cexAnn, List.filter])
  exact ⟨h.1, (h.2 0 cexAnn { cexAnn with x := -2, y := 50 } rfl rfl).2.1⟩

/-- C10: a paste places the duplicate at exactly
(min(clip.x + 10, pageWidth - clip.width), min(clip.y + 10, pageHeight -
clip.height)) on the current page, with no lower clamp at 0: when the
clipboard box is wider (resp. taller) than the page, the pasted x
(resp. y) is negative. -/
theorem C10_paste (clip : Annot) (dimW dimH : ℚ) (curPage : ℕ)
    (newId : String) :
    (pasteAnnot clip dimW dimH curPage newId).x
      = minQ (clip.x + 10) (dimW - clip.width) ∧
    (pasteAnnot clip dimW dimH curPage newId).y
      = minQ (clip.y + 10) (dimH - clip.height) ∧
    (pasteAnnot clip dimW dimH curPage newId).page = curPage + 1 ∧
    (dimW < clip.width → (pasteAnnot clip dimW dimH curPage newId).x < 0) ∧
    (dimH < clip.height → (pasteAnnot clip dimW dimH curPage newId).y < 0) := by
  refine ⟨rfl, rfl, rfl, ?_, ?_⟩
  · intro hlt
    show minQ (clip.x + 10) (dimW - clip.width) < 0
    rw [minQ_eq]
    exact lt_of_le_of_lt (min_le_right _ _) (by linarith)
  · intro hlt
    show minQ (clip.y + 10) (dimH - clip.height) < 0
    rw [minQ_eq]
    exact lt_of_le_of_lt (min_le_right _ _) (by linarith)

/-- Witness for C10: pasting the oversized clipboard clipBig onto an A4
page produces a negative position on both axes. -/
theorem C10_paste_witness :
    (pasteAnnot clipBig 595 842 0 "d").x < 0 ∧
    (pasteAnnot clipBig 595 842 0 "d").y < 0 ∧
    (pasteAnnot clipBig 595 842 0 "d").page = 0 + 1 :=
  ⟨(C10_paste clipBig 595 842 0 "d").2.2.2.1 (by norm_num [clipBig]),
   (C10_paste clipBig 595 842 0 "d").2.2.2.2 (by norm_num [clipBig]),
   (C10_paste clipBig 595 842 0 "d").2.2.1⟩

end DocuThing
